import Mathlib

/-!
Shallow embedding of the Ph.Sh_URL reconnaissance tool (main.go) and proofs
about its per-domain fetch orchestration, retrying HTTP fetcher, source
queriers, result accumulation, interrupt handling and domain validation.

Modelling conventions:
* A Go `[]string` slice is `Option (List String)`: `none` is the `nil`
  slice, `some l` a non-nil slice with elements `l`.  Go's `append` on a
  slice always yields a non-nil slice, and `len`/`range` treat `nil` as
  empty; `goAppend` and `goLen` mirror this.
* Network I/O is an oracle: each call to `http.DefaultClient.Do` is an
  entry of a function `Nat → DoOutcome` indexed by attempt number.  Per
  the documented contract of `http.Client.Do`, a received HTTP response
  (any status code, including 4xx/5xx) comes with a `nil` error
  (`DoOutcome.success`), while a transport or redirect-policy failure
  yields a non-nil error and (almost always `nil`) optional response
  (`DoOutcome.failure`).
* `json.Unmarshal` and body decoding are oracle functions from the raw
  body string to the decoded structure (Go ignores the unmarshal error and
  leaves the zero value on failure, so the oracle is total).
* Channel sends are collected into lists: a querier run records the exact
  sequence of messages sent on the URL channel and on the log channel.
-/

namespace PhShUrl

/-- A Go `[]string` value: `none` is the nil slice, `some l` a non-nil slice. -/
abbrev GoSlice := Option (List String)

/-- Go `append` on a `[]string`: always yields a non-nil slice (main.go uses
`urls = append(urls, x)` starting from a nil `var urls []string`). -/
def goAppend (s : GoSlice) (x : String) : GoSlice :=
  some (s.getD [] ++ [x])

/-- Go `len` of a `[]string`; `len(nil) = 0`. -/
def goLen (s : GoSlice) : Nat := (s.getD []).length

/-- A Go `error` value (non-nil).  `afterAttempts` models the wrapped error
built by `fmt.Errorf("request failed after %d attempts: %w", ...)`. -/
inductive GoError where
  | mk (msg : String)
  | afterAttempts (n : Nat) (inner : GoError)
deriving DecidableEq, Repr

/-- The part of an `*http.Response` the program observes. -/
structure Response where
  statusCode : Nat
  body : String
deriving DecidableEq, Repr

/-- Outcome of one call to `http.DefaultClient.Do(req)`.  Per the `net/http`
contract: `err == nil` implies a non-nil response (`success`); a non-nil
error carries a response only in redirect-policy failures (`failure`). -/
inductive DoOutcome where
  | success (resp : Response)
  | failure (resp : Option Response) (e : GoError)
deriving DecidableEq, Repr

/-- Payload of a log line, one constructor per `fmt.Sprintf` site in main.go. -/
inductive LogBody where
  | requestFailedRetrying (attempt : Nat) (e : GoError)
  | clientErrorNotRetrying (status : Nat)
  | failedCreateRequest
  | errorText (e : GoError)
  | foundUrls (n : Nat)
  | processingWithoutKey
deriving DecidableEq, Repr

/-- The `logMessage` struct of main.go: severity type, source tag, message. -/
structure logMessage where
  type : String
  source : String
  message : LogBody
deriving DecidableEq, Repr

/-- The `retryAttempts` constant of main.go. -/
def retryAttempts : Nat := 3

/-- Result of `makeRequestWithRetry`: `ok` is the `err == nil` early return,
`clientErr` the 400..499 early return (response plus error as-is),
`exhausted` the fall-through `return nil, fmt.Errorf(...)`. -/
inductive RetryOutcome where
  | ok (resp : Response)
  | clientErr (resp : Response) (e : GoError)
  | exhausted (e : GoError)
deriving DecidableEq, Repr

/-- Observable behaviour of one `makeRequestWithRetry` call: its return
value, how many `Do` attempts it made, how many `time.Sleep(retryDelay)`
calls it performed, and the log messages it sent. -/
structure RetryResult where
  outcome : RetryOutcome
  attempts : Nat
  sleeps : Nat
  logs : List logMessage
deriving DecidableEq, Repr

/-- Log emission guarded by `if !silent` in main.go. -/
def logIf (silent : Bool) (l : List logMessage) : List logMessage :=
  if silent then [] else l

/-- The loop body of `makeRequestWithRetry` (main.go:146-166): `i` is the
current attempt index, `fuel` the remaining iterations of
`for i := 0; i < retryAttempts; i++`, threading the sleep count, sent log
messages, and the last error for the terminal wrap. -/
def retryAux (doFn : Nat → DoOutcome) (silent : Bool) (source : String) :
    Nat → Nat → Nat → List logMessage → GoError → RetryResult
  | i, 0, sleeps, logs, lastErr =>
    ⟨.exhausted (.afterAttempts retryAttempts lastErr), i, sleeps, logs⟩
  | i, fuel + 1, sleeps, logs, _ =>
    match doFn i with
    | .success resp => ⟨.ok resp, i + 1, sleeps, logs⟩
    | .failure oresp e =>
      let logs1 := logs ++
        logIf silent [⟨"WARNING", source, .requestFailedRetrying (i + 1) e⟩]
      match oresp with
      | some r =>
        if 400 ≤ r.statusCode ∧ r.statusCode < 500 then
          ⟨.clientErr r e, i + 1, sleeps,
            logs1 ++ logIf silent [⟨"ERROR", source, .clientErrorNotRetrying r.statusCode⟩]⟩
        else
          retryAux doFn silent source (i + 1) fuel (sleeps + 1) logs1 e
      | none => retryAux doFn silent source (i + 1) fuel (sleeps + 1) logs1 e

/-- `makeRequestWithRetry` (main.go:142-168) over a `Do` oracle. -/
def makeRequestWithRetry (doFn : Nat → DoOutcome) (silent : Bool)
    (source : String) : RetryResult :=
  retryAux doFn silent source 0 retryAttempts 0 [] (.mk "")

/-! ## Source queriers -/

/-- Observable behaviour of one querier goroutine: the exact sequence of
messages it sends on the shared URL channel (`ch <- ...`), the log messages
it sends on the log channel, and whether it signalled the wait-group
(`defer wg.Done()` fires on every return path). -/
structure QuerierRun where
  sent : List GoSlice
  logs : List logMessage
  wgDone : Bool
deriving DecidableEq, Repr

/-- The `VirusTotalResponse` struct of main.go. -/
structure VirusTotalResponse where
  undetectedUrls : List (List String)
  responseCode : Int
deriving DecidableEq, Repr

/-- URL extraction of `getVirusTotalURLs` (main.go:202-209): starting from a
nil `var urls []string`, when `r.ResponseCode == 1` append the head of each
non-empty nested entry.  Zero appends leave the slice nil. -/
def vtExtract (r : VirusTotalResponse) : GoSlice :=
  if r.responseCode = 1 then
    r.undetectedUrls.foldl
      (fun s item =>
        match item with
        | [] => s
        | x :: _ => goAppend s x) none
  else none

/-- Continuation of `getVirusTotalURLs` after `makeRequestWithRetry`
returns (main.go:189-213): error means `ch <- nil`; otherwise parse the
body and send the extracted slice with a SUCCESS log. -/
def vtAfterFetch (silent : Bool) (outcome : RetryOutcome)
    (retryLogs : List logMessage) (parse : String → VirusTotalResponse) :
    QuerierRun :=
  match outcome with
  | .ok resp =>
    ⟨[vtExtract (parse resp.body)],
      retryLogs ++
        logIf silent
          [⟨"SUCCESS", "VT", .foundUrls (goLen (vtExtract (parse resp.body)))⟩],
      true⟩
  | .clientErr _ e =>
    ⟨[none], retryLogs ++ logIf silent [⟨"ERROR", "VT", .errorText e⟩], true⟩
  | .exhausted e =>
    ⟨[none], retryLogs ++ logIf silent [⟨"ERROR", "VT", .errorText e⟩], true⟩

/-- `getVirusTotalURLs` (main.go:172-214).  `reqOk` is the success of
`http.NewRequest`, `doFn` the `Do` oracle, `parse` the `json.Unmarshal`
oracle.  With an empty key list the function returns having sent nothing on
the URL channel (main.go:174-176). -/
def getVirusTotalURLs (apiKeys : List String) (_apiKeyIndex : Nat)
    (silent : Bool) (reqOk : Bool) (doFn : Nat → DoOutcome)
    (parse : String → VirusTotalResponse) : QuerierRun :=
  if apiKeys.length = 0 then ⟨[], [], true⟩
  else if reqOk = false then
    ⟨[none], logIf silent [⟨"ERROR", "VT", .failedCreateRequest⟩], true⟩
  else
    vtAfterFetch silent (makeRequestWithRetry doFn silent "VT").outcome
      (makeRequestWithRetry doFn silent "VT").logs parse

/-- The `AlienVaultResponse` struct of main.go; `urlList` collects the
`URL` field of each `url_list` entry. -/
structure AlienVaultResponse where
  urlList : List String
  hasNext : Bool
deriving DecidableEq, Repr

/-- Per-page oracle for the OTX pagination loop: success of
`http.NewRequest` for that page and the `Do` oracle used by
`makeRequestWithRetry` on that page. -/
structure OtxPage where
  reqOk : Bool
  doFn : Nat → DoOutcome

/-- Environment of one `getAlienVaultURLs` run: a per-page oracle (page
indices from 0) and the `json.Unmarshal` oracle. -/
structure OtxEnv where
  page : Nat → OtxPage
  parse : String → AlienVaultResponse

/-- Exit path of the OTX loop (main.go:255-258): after the loop ends — by
`break` on an error or by `HasNext` being false — a SUCCESS log reporting
the accumulated count is sent, then the accumulated slice itself (nil if
nothing was ever appended). -/
def otxFinish (silent : Bool) (logs : List logMessage) (acc : GoSlice) :
    QuerierRun :=
  ⟨[acc], logs ++ logIf silent [⟨"SUCCESS", "OTX", .foundUrls (goLen acc)⟩], true⟩

/-- The `for` loop of `getAlienVaultURLs` (main.go:220-254).  `p` is the
page index, `fuel` bounds the number of iterations modelled (the Go loop
runs until `HasNext` is false or an error breaks out; fuel exhaustion is
modelled as the loop exiting), `acc` the `allUrls` slice, `logs` the log
messages sent so far. -/
def otxLoop (silent : Bool) (env : OtxEnv) :
    Nat → Nat → GoSlice → List logMessage → QuerierRun
  | _, 0, acc, logs => otxFinish silent logs acc
  | p, fuel + 1, acc, logs =>
    if (env.page p).reqOk = false then
      otxFinish silent
        (logs ++ logIf silent [⟨"ERROR", "OTX", .failedCreateRequest⟩]) acc
    else
      match (makeRequestWithRetry (env.page p).doFn silent "OTX").outcome with
      | .ok resp =>
        if (env.parse resp.body).hasNext then
          otxLoop silent env (p + 1) fuel
            ((env.parse resp.body).urlList.foldl goAppend acc)
            (logs ++ (makeRequestWithRetry (env.page p).doFn silent "OTX").logs)
        else
          otxFinish silent
            (logs ++ (makeRequestWithRetry (env.page p).doFn silent "OTX").logs)
            ((env.parse resp.body).urlList.foldl goAppend acc)
      | .clientErr _ e =>
        otxFinish silent
          (logs ++ (makeRequestWithRetry (env.page p).doFn silent "OTX").logs ++
            logIf silent [⟨"ERROR", "OTX", .errorText e⟩]) acc
      | .exhausted e =>
        otxFinish silent
          (logs ++ (makeRequestWithRetry (env.page p).doFn silent "OTX").logs ++
            logIf silent [⟨"ERROR", "OTX", .errorText e⟩]) acc

/-- `getAlienVaultURLs` (main.go:216-259): starts at the first page with a
nil `var allUrls []string`.  The API keys only affect the request header
and carry no observable control flow beyond that. -/
def getAlienVaultURLs (_apiKeys : List String) (_apiKeyIndex : Nat)
    (silent : Bool) (env : OtxEnv) (fuel : Nat) : QuerierRun :=
  otxLoop silent env 0 fuel none []

/-- Blank test used by `getWaybackURLs` (`strings.TrimSpace(line) != ""`):
a line is kept when some character is not whitespace. -/
def waybackKeepLine (line : List Char) : Bool :=
  line.any (fun c => ¬ c.isWhitespace)

/-- Splits a character list at every occurrence of `sep`, as Go's
`strings.Split` does (no separator collapsing, empty pieces kept). -/
def splitOnSep (sep : Char) : List Char → List (List Char)
  | [] => [[]]
  | c :: rest =>
    match splitOnSep sep rest with
    | [] => if c = sep then [[], [c]] else [[c]]
    | p :: ps => if c = sep then [] :: p :: ps else (c :: p) :: ps

/-- Body handling of `getWaybackURLs` (main.go:284-292): split on newlines,
keep non-blank lines verbatim, accumulating with `append` from a nil slice. -/
def waybackExtract (body : String) : GoSlice :=
  (splitOnSep (Char.ofNat 10) body.data).foldl
    (fun s line =>
      if waybackKeepLine line then goAppend s (String.mk line) else s) none

/-- Continuation of `getWaybackURLs` after the fetch (main.go:274-296). -/
def waybackAfterFetch (silent : Bool) (outcome : RetryOutcome)
    (retryLogs : List logMessage) : QuerierRun :=
  match outcome with
  | .ok resp =>
    ⟨[waybackExtract resp.body],
      retryLogs ++
        logIf silent
          [⟨"SUCCESS", "Wayback", .foundUrls (goLen (waybackExtract resp.body))⟩],
      true⟩
  | .clientErr _ e =>
    ⟨[none], retryLogs ++ logIf silent [⟨"ERROR", "Wayback", .errorText e⟩], true⟩
  | .exhausted e =>
    ⟨[none], retryLogs ++ logIf silent [⟨"ERROR", "Wayback", .errorText e⟩], true⟩

/-- `getWaybackURLs` (main.go:261-297): single unauthenticated request. -/
def getWaybackURLs (silent : Bool) (reqOk : Bool) (doFn : Nat → DoOutcome) :
    QuerierRun :=
  if reqOk = false then
    ⟨[none], logIf silent [⟨"ERROR", "Wayback", .failedCreateRequest⟩], true⟩
  else
    waybackAfterFetch silent (makeRequestWithRetry doFn silent "Wayback").outcome
      (makeRequestWithRetry doFn silent "Wayback").logs

/-- The `HudsonRockResponse` struct of main.go; `allUrls` collects the
`URL` field of each `data.all_urls` entry. -/
structure HudsonRockResponse where
  allUrls : List String
deriving DecidableEq, Repr

/-- URL extraction of `getHudsonRockURLs` (main.go:335-338). -/
def hrExtract (r : HudsonRockResponse) : GoSlice :=
  r.allUrls.foldl goAppend none

/-- Continuation of `getHudsonRockURLs` after the fetch (main.go:321-343). -/
def hrAfterFetch (silent : Bool) (outcome : RetryOutcome)
    (retryLogs : List logMessage) (parse : String → HudsonRockResponse) :
    QuerierRun :=
  match outcome with
  | .ok resp =>
    ⟨[hrExtract (parse resp.body)],
      retryLogs ++
        logIf silent
          [⟨"SUCCESS", "HudsonRock", .foundUrls (goLen (hrExtract (parse resp.body)))⟩],
      true⟩
  | .clientErr _ e =>
    ⟨[none], retryLogs ++ logIf silent [⟨"ERROR", "HudsonRock", .errorText e⟩], true⟩
  | .exhausted e =>
    ⟨[none], retryLogs ++ logIf silent [⟨"ERROR", "HudsonRock", .errorText e⟩], true⟩

/-- `getHudsonRockURLs` (main.go:299-344): the request is constructed
first; a missing key only adds a WARNING and the call proceeds
unauthenticated. -/
def getHudsonRockURLs (apiKeys : List String) (_apiKeyIndex : Nat)
    (silent : Bool) (reqOk : Bool) (doFn : Nat → DoOutcome)
    (parse : String → HudsonRockResponse) : QuerierRun :=
  if reqOk = false then
    ⟨[none], logIf silent [⟨"ERROR", "HudsonRock", .failedCreateRequest⟩], true⟩
  else
    hrAfterFetch silent (makeRequestWithRetry doFn silent "HudsonRock").outcome
      ((if apiKeys.length = 0 then
          logIf silent [⟨"WARNING", "HudsonRock", .processingWithoutKey⟩]
        else []) ++ (makeRequestWithRetry doFn silent "HudsonRock").logs)
      parse

/-! ## Per-domain orchestration (main.go:492-601) -/

/-- Insertion into the global URL set, modelling assignment of a key into
the Go map `finalUrlSet` (a map from string to the empty struct): the set
is a duplicate-free list of keys and inserting an existing key changes
nothing. -/
def setInsert (s : List String) (u : String) : List String :=
  if u ∈ s then s else s ++ [u]

/-- Inner loop `for _, u := range urls` of the drain (main.go:581-583);
ranging over a nil slice performs no insertions. -/
def insertUrls (s : List String) (m : GoSlice) : List String :=
  (m.getD []).foldl setInsert s

/-- The drain loop `for urls := range urlChannel` (main.go:577-584):
`success` is the `domainSuccess` flag, set when a received slice is
non-nil; every received URL is inserted into the global set. -/
def drainLoop (success : Bool) (s : List String) :
    List GoSlice → Bool × List String
  | [] => (success, s)
  | m :: rest => drainLoop (success || m.isSome) (insertUrls s m) rest

/-- One domain iteration after the queriers finish (main.go:577-588):
drain the URL channel into the global set, then append the domain to
`failedDomains` exactly when `!domainSuccess && runCount > 0`. -/
def processDomain (runCount : Nat) (msgs : List GoSlice)
    (s0 f0 : List String) (dom : String) : List String × List String :=
  ((drainLoop false s0 msgs).2,
    if (drainLoop false s0 msgs).1 = false ∧ 0 < runCount then f0 ++ [dom]
    else f0)

/-- One processed domain of a run: its name, the number of dispatched
queriers (`runCount`), and the sequence of messages those queriers sent on
the URL channel. -/
structure DomainRun where
  dom : String
  runCount : Nat
  msgs : List GoSlice
deriving DecidableEq, Repr

/-- The driver loop over domains (main.go:492-601), threading the global
URL set and the failed-domain list. -/
def mainLoop : List DomainRun → List String × List String →
    List String × List String
  | [], acc => acc
  | d :: rest, acc =>
    mainLoop rest (processDomain d.runCount d.msgs acc.1 acc.2 d.dom)

/-! ## Interrupt handler and end-of-run behaviour (main.go:459-490, 603-627) -/

/-- One `writeLinesToFile` call: target path and the lines written. -/
structure WriteAction where
  path : String
  lines : List String
deriving DecidableEq, Repr

/-- Observable effect of the interrupt watcher goroutine
(main.go:462-490): the file writes it performs, and whether it called
`os.Exit(0)`. -/
structure InterruptResult where
  writes : List WriteAction
  exited : Bool
deriving DecidableEq, Repr

/-- The interrupt watcher body (main.go:462-490): flatten the current
global URL set and write it to the output path unconditionally, write
`failed_domains.txt` only when the failed list is non-empty, then exit. -/
def interruptHandler (outputFile : String) (urlSet failedDomains : List String) :
    InterruptResult :=
  ⟨[⟨outputFile, urlSet⟩] ++
      (if 0 < failedDomains.length then
        [⟨"failed_domains.txt", failedDomains⟩]
      else []),
    true⟩

/-- A run interrupted after `k` domains: the first `k` domains have been
drained into the accumulator, the interrupt watcher then snapshots it; the
remaining domains are never processed. -/
def runWithInterrupt (outputFile : String) (doms : List DomainRun) (k : Nat) :
    InterruptResult :=
  interruptHandler outputFile (mainLoop (doms.take k) ([], [])).1
    (mainLoop (doms.take k) ([], [])).2

/-- Observable end-of-turn behaviour of main: URLs printed to stdout and
files written. -/
structure EndBehavior where
  stdoutUrls : List String
  writes : List WriteAction
deriving DecidableEq, Repr

/-- Normal completion (main.go:603-627): `failed_domains.txt` is written
first when non-empty; then in silent mode the URLs go to stdout and the
output file is not written, otherwise the output file is written. -/
def normalCompletion (silent : Bool) (outputFile : String)
    (urlSet failedDomains : List String) : EndBehavior :=
  ⟨if silent then urlSet else [],
    (if 0 < failedDomains.length then
      [⟨"failed_domains.txt", failedDomains⟩]
    else []) ++ (if silent then [] else [⟨outputFile, urlSet⟩])⟩

/-- End behaviour when the interrupt fires: the watcher writes files but
never prints URLs to stdout (its log lines are suppressed when silent and
are not URLs). -/
def interruptCompletion (outputFile : String)
    (urlSet failedDomains : List String) : EndBehavior :=
  ⟨[], (interruptHandler outputFile urlSet failedDomains).writes⟩

/-! ## Orchestrator event trace (main.go:564-588) -/

/-- Events of the per-domain orchestration sequence in main: waiting on the
querier wait-group, closing the two channels, the log consumer finishing
(`logWg.Wait()` returning, which requires the log channel closed and fully
drained), reading the i-th message from the results channel, and the
success/failure decision for the domain. -/
inductive OrchEvent where
  | waitAll
  | closeUrlChan
  | closeLogChan
  | logDrained
  | readResult (i : Nat)
  | decideOutcome
deriving DecidableEq, Repr

/-- The sequence of orchestration events for one domain with `runCount`
dispatched queriers and `msgCount` messages on the results channel,
read off the statement order of main.go:564-588. -/
def orchestratorTrace (runCount msgCount : Nat) : List OrchEvent :=
  (if runCount = 0 then [.closeUrlChan, .closeLogChan]
   else [.waitAll, .closeUrlChan, .closeLogChan]) ++
    [.logDrained] ++ (List.range msgCount).map .readResult ++ [.decideOutcome]

/-- Recognizes the wait-group wait event. -/
def isWaitAll : OrchEvent → Bool
  | .waitAll => true
  | _ => false

/-- Recognizes a channel-close event. -/
def isCloseChan : OrchEvent → Bool
  | .closeUrlChan => true
  | .closeLogChan => true
  | _ => false

/-- Recognizes the log-drained event. -/
def isLogDrained : OrchEvent → Bool
  | .logDrained => true
  | _ => false

/-- Recognizes a results-channel read event. -/
def isReadResult : OrchEvent → Bool
  | .readResult _ => true
  | _ => false

/-- Recognizes the domain success/failure decision event. -/
def isDecision : OrchEvent → Bool
  | .decideOutcome => true
  | _ => false

/-- Every event satisfying `p` occurs strictly before every event
satisfying `q` in the trace `tr`. -/
def eventsBefore (tr : List OrchEvent) (p q : OrchEvent → Bool) : Prop :=
  ∀ i : Fin tr.length, ∀ j : Fin tr.length,
    p (tr.get i) = true → q (tr.get j) = true → i.val < j.val

instance (tr : List OrchEvent) (p q : OrchEvent → Bool) :
    Decidable (eventsBefore tr p q) := by
  unfold eventsBefore; infer_instance

/-! ## Domain cleaning and validation (main.go:41-52) -/

/-- Character class kept by the cleaning regex `[^a-zA-Z0-9.-]`
replacement in `cleanDomainLine`. -/
def isDomainChar (c : Char) : Bool :=
  c.isAlpha || c.isDigit || c == '.' || c == '-'

/-- Go's `strings.TrimSpace` on a character list: drop whitespace from
both ends. -/
def trimSpaceList (l : List Char) : List Char :=
  ((l.dropWhile Char.isWhitespace).reverse.dropWhile Char.isWhitespace).reverse

/-- `cleanDomainLine` (main.go:47-52): delete every character outside
`[a-zA-Z0-9.-]`, then trim surrounding whitespace. -/
def cleanDomainLine (line : String) : String :=
  String.mk (trimSpaceList (line.data.filter isDomainChar))

/-- Alphanumeric ASCII character, the `[a-z0-9]` class of the validation
regex under its `(?i)` flag. -/
def isAlnumChar (c : Char) : Bool :=
  c.isAlpha || c.isDigit

/-- One label group `[a-z0-9]([a-z0-9-]{0,61}[a-z0-9])?` of the validation
regex: a single alphanumeric, or 2 to 63 characters starting and ending
alphanumeric with alphanumerics or hyphens between. -/
def labelOk : List Char → Bool
  | [] => false
  | [c] => isAlnumChar c
  | c :: rest =>
    isAlnumChar c && (rest.length + 1 ≤ 63) &&
      rest.dropLast.all (fun d => isAlnumChar d || d == '-') &&
      (match rest.getLast? with
       | some d => isAlnumChar d
       | none => false)

/-- The final `[a-z]{2,}` group of the validation regex: at least two
alphabetic characters. -/
def tldOk (l : List Char) : Bool :=
  2 ≤ l.length && l.all Char.isAlpha

/-- `isValidDomain` (main.go:41-44), the anchored regex
`(?i)^([a-z0-9]([a-z0-9-]{0,61}[a-z0-9])?\.)+[a-z]{2,}$`: splitting on
dots, every part but the last is a label group and the last is the TLD
group, with at least one label group present. -/
def isValidDomain (s : String) : Bool :=
  2 ≤ (splitOnSep '.' s.data).length &&
    (splitOnSep '.' s.data).dropLast.all labelOk &&
    tldOk ((splitOnSep '.' s.data).getLastD [])

/-- The property named by the spec: the string has a dot-separated final
label that is entirely alphabetic and of length at least 2. -/
def hasAlphaFinalLabel (s : String) : Bool :=
  2 ≤ (splitOnSep '.' s.data).length &&
    2 ≤ ((splitOnSep '.' s.data).getLastD []).length &&
    ((splitOnSep '.' s.data).getLastD []).all Char.isAlpha

/-- A concrete OTX environment: the first page succeeds with one URL and
declares a further page; every request on the second page fails at the
transport level, so the fetch for that page exhausts its retries. -/
def otxEnvPartial : OtxEnv :=
  { page := fun p =>
      if p = 0 then ⟨true, fun _ => .success ⟨200, "pageone"⟩⟩
      else ⟨true, fun _ => .failure none (.mk "timeout")⟩,
    parse := fun b => if b = "pageone" then ⟨["u1"], true⟩ else ⟨[], false⟩ }

/-! ## Helper lemmas -/

theorem isValidDomain_examples :
    isValidDomain "example.com" = true ∧
    isValidDomain "sub.example.co" = true ∧
    isValidDomain "example" = false ∧
    isValidDomain "example.c" = false ∧
    isValidDomain "-a.com" = false ∧
    isValidDomain "a-b.x9y.com" = true ∧
    isValidDomain "a.com." = false ∧
    isValidDomain ".com" = false ∧
    isValidDomain "a..com" = false ∧
    cleanDomainLine " exa&mple.com " = "example.com" := by decide

theorem mem_setInsert (s : List String) (v u : String) :
    u ∈ setInsert s v ↔ u ∈ s ∨ u = v := by
  unfold setInsert
  by_cases h : v ∈ s
  · simp only [h, if_true]
    constructor
    · exact Or.inl
    · rintro (hu | rfl)
      · exact hu
      · exact h
  · simp [h, List.mem_append]

theorem nodup_setInsert (s : List String) (v : String) (hs : s.Nodup) :
    (setInsert s v).Nodup := by
  unfold setInsert
  by_cases h : v ∈ s
  · simpa [h] using hs
  · simp [h, List.nodup_append, hs]

theorem subset_setInsert (s : List String) (v : String) : s ⊆ setInsert s v :=
  fun _ hu => (mem_setInsert s v _).mpr (Or.inl hu)

theorem mem_foldl_setInsert (l : List String) (s : List String) (u : String) :
    u ∈ l.foldl setInsert s ↔ u ∈ s ∨ u ∈ l := by
  induction l generalizing s with
  | nil => simp
  | cons a l ih =>
    simp only [List.foldl_cons, ih, mem_setInsert, List.mem_cons]
    tauto

theorem nodup_foldl_setInsert (l : List String) (s : List String)
    (hs : s.Nodup) : (l.foldl setInsert s).Nodup := by
  induction l generalizing s with
  | nil => simpa
  | cons a l ih => exact ih _ (nodup_setInsert s a hs)

theorem mem_insertUrls (s : List String) (m : GoSlice) (u : String) :
    u ∈ insertUrls s m ↔ u ∈ s ∨ u ∈ m.getD [] :=
  mem_foldl_setInsert _ s u

theorem drainLoop_fst (msgs : List GoSlice) (b : Bool) (s : List String) :
    (drainLoop b s msgs).1 = (b || msgs.any Option.isSome) := by
  induction msgs generalizing b s with
  | nil => simp [drainLoop]
  | cons m rest ih =>
    simp [drainLoop, ih, Bool.or_assoc]

theorem drainLoop_snd_mem (msgs : List GoSlice) (b : Bool) (s : List String)
    (u : String) :
    u ∈ (drainLoop b s msgs).2 ↔ u ∈ s ∨ ∃ m ∈ msgs, u ∈ m.getD [] := by
  induction msgs generalizing b s with
  | nil => simp [drainLoop]
  | cons m rest ih =>
    simp only [drainLoop, ih, mem_insertUrls, List.mem_cons]
    constructor
    · rintro ((hu | hu) | ⟨m', hm', hu⟩)
      · exact Or.inl hu
      · exact Or.inr ⟨m, Or.inl rfl, hu⟩
      · exact Or.inr ⟨m', Or.inr hm', hu⟩
    · rintro (hu | ⟨m', (rfl | hm'), hu⟩)
      · exact Or.inl (Or.inl hu)
      · exact Or.inl (Or.inr hu)
      · exact Or.inr ⟨m', hm', hu⟩

theorem drainLoop_snd_nodup (msgs : List GoSlice) (b : Bool)
    (s : List String) (hs : s.Nodup) : (drainLoop b s msgs).2.Nodup := by
  induction msgs generalizing b s with
  | nil => simpa [drainLoop]
  | cons m rest ih => exact ih _ _ (nodup_foldl_setInsert _ s hs)

theorem processDomain_fst_mem (runCount : Nat) (msgs : List GoSlice)
    (s0 f0 : List String) (dom : String) (u : String) :
    u ∈ (processDomain runCount msgs s0 f0 dom).1 ↔
      u ∈ s0 ∨ ∃ m ∈ msgs, u ∈ m.getD [] :=
  drainLoop_snd_mem msgs false s0 u

theorem mainLoop_fst_mem (doms : List DomainRun) (s f : List String)
    (u : String) :
    u ∈ (mainLoop doms (s, f)).1 ↔
      u ∈ s ∨ ∃ d ∈ doms, ∃ m ∈ d.msgs, u ∈ m.getD [] := by
  induction doms generalizing s f with
  | nil => simp [mainLoop]
  | cons d rest ih =>
    show u ∈ (mainLoop rest (processDomain d.runCount d.msgs s f d.dom)).1 ↔ _
    rw [show processDomain d.runCount d.msgs s f d.dom =
        ((processDomain d.runCount d.msgs s f d.dom).1,
         (processDomain d.runCount d.msgs s f d.dom).2) from rfl]
    simp only [ih, processDomain_fst_mem, List.mem_cons]
    constructor
    · rintro ((hu | hu) | ⟨d', hd', hu⟩)
      · exact Or.inl hu
      · exact Or.inr ⟨d, Or.inl rfl, hu⟩
      · exact Or.inr ⟨d', Or.inr hd', hu⟩
    · rintro (hu | ⟨d', (rfl | hd'), hu⟩)
      · exact Or.inl (Or.inl hu)
      · exact Or.inl (Or.inr hu)
      · exact Or.inr ⟨d', hd', hu⟩

theorem mainLoop_fst_nodup (doms : List DomainRun) (s f : List String)
    (hs : s.Nodup) : (mainLoop doms (s, f)).1.Nodup := by
  induction doms generalizing s f with
  | nil => simpa [mainLoop]
  | cons d rest ih =>
    exact ih _ _ (drainLoop_snd_nodup d.msgs false s hs)

theorem mainLoop_fst_subset (doms : List DomainRun) (s f : List String) :
    s ⊆ (mainLoop doms (s, f)).1 := fun u hu =>
  (mainLoop_fst_mem doms s f u).mpr (Or.inl hu)

theorem otxLoop_shape (silent : Bool) (env : OtxEnv) (fuel p : Nat)
    (acc : GoSlice) (logs : List logMessage) :
    (otxLoop silent env p fuel acc logs).sent.length = 1 ∧
      (otxLoop silent env p fuel acc logs).wgDone = true := by
  induction fuel generalizing p acc logs with
  | zero => exact ⟨rfl, rfl⟩
  | succ fuel ih =>
    rw [otxLoop]
    by_cases hreq : (env.page p).reqOk = false
    · simp only [hreq, if_true]
      exact ⟨rfl, rfl⟩
    · simp only [hreq, if_false]
      cases houtcome :
          (makeRequestWithRetry (env.page p).doFn silent "OTX").outcome with
      | ok resp =>
        by_cases hnext : (env.parse resp.body).hasNext
        · simp only [hnext, if_true]
          exact ih _ _ _
        · simp only [hnext, if_false]
          exact ⟨rfl, rfl⟩
      | clientErr resp e => exact ⟨rfl, rfl⟩
      | exhausted e => exact ⟨rfl, rfl⟩

theorem trimSpaceList_subset (l : List Char) : trimSpaceList l ⊆ l := by
  intro c hc
  rw [trimSpaceList, List.mem_reverse] at hc
  have h1 : c ∈ (l.dropWhile Char.isWhitespace).reverse :=
    (List.dropWhile_sublist _).subset hc
  rw [List.mem_reverse] at h1
  exact (List.dropWhile_sublist _).subset h1

theorem isValidDomain_imp_hasAlphaFinalLabel (s : String)
    (h : isValidDomain s = true) : hasAlphaFinalLabel s = true := by
  unfold isValidDomain at h
  unfold hasAlphaFinalLabel
  simp only [Bool.and_eq_true, decide_eq_true_eq] at h ⊢
  obtain ⟨⟨hlen, -⟩, htld⟩ := h
  unfold tldOk at htld
  simp only [Bool.and_eq_true, decide_eq_true_eq] at htld
  exact ⟨⟨hlen, htld.1⟩, htld.2⟩

/-! ## Claim theorems -/

/-- C2 (code bug evaluation): contrary to the claim, `makeRequestWithRetry`
returns after exactly 1 attempt with no sleeps for every received HTTP
response, because `http.DefaultClient.Do` reports a nil error whenever a
response (of any status) arrives: a constant-500 request is returned as a
success after 1 attempt instead of 3 attempts and terminal failure; a 404
is returned after 1 attempt with a nil error rather than "response plus
error"; a 429-then-success request returns the 429 after 1 attempt.  Only
transport errors (nil response, non-nil error) are retried: those exhaust
3 attempts with 3 sleeps and a terminal wrapped error. -/
theorem claim_C2_code_eval :
    makeRequestWithRetry (fun _ => .success ⟨500, "err"⟩) true "VT" =
      ⟨.ok ⟨500, "err"⟩, 1, 0, []⟩ ∧
    makeRequestWithRetry (fun _ => .success ⟨404, ""⟩) true "VT" =
      ⟨.ok ⟨404, ""⟩, 1, 0, []⟩ ∧
    makeRequestWithRetry
        (fun i => if i = 0 then .success ⟨429, ""⟩ else .success ⟨200, ""⟩)
        true "VT" =
      ⟨.ok ⟨429, ""⟩, 1, 0, []⟩ ∧
    makeRequestWithRetry (fun _ => .failure none (.mk "refused")) true "VT" =
      ⟨.exhausted (.afterAttempts 3 (.mk "refused")), 3, 3, []⟩ := by
  decide

/-- C3: a domain is appended to the failed-domain list if and only if at
least one source was dispatched (`runCount > 0`) and every message read
from the results channel is the nil (absent) marker; with zero dispatched
sources the list is unchanged. -/
theorem claim_C3_failed_iff (runCount : Nat) (msgs : List GoSlice)
    (s0 f0 : List String) (dom : String) :
    ((processDomain runCount msgs s0 f0 dom).2 = f0 ++ [dom] ↔
      0 < runCount ∧ ∀ m ∈ msgs, m = none) ∧
    (runCount = 0 → (processDomain runCount msgs s0 f0 dom).2 = f0) := by
  have hfst : (drainLoop false s0 msgs).1 = msgs.any Option.isSome := by
    simpa using drainLoop_fst msgs false s0
  have hnone : msgs.any Option.isSome = false ↔ ∀ m ∈ msgs, m = none := by
    rw [List.any_eq_false]
    constructor
    · intro h m hm
      have hm2 := h m hm
      simpa [Option.isSome_iff_ne_none] using hm2
    · intro h m hm
      rw [h m hm]
      simp
  have hne : f0 ++ [dom] ≠ f0 := by
    intro h
    have hl := congrArg List.length h
    simp at hl
  constructor
  · unfold processDomain
    by_cases hc : (drainLoop false s0 msgs).1 = false ∧ 0 < runCount
    · rw [if_pos hc]
      constructor
      · intro _
        exact ⟨hc.2, hnone.mp (hfst ▸ hc.1)⟩
      · intro _
        rfl
    · rw [if_neg hc]
      constructor
      · intro h
        exact absurd h.symm hne
      · rintro ⟨hrc, hall⟩
        exact absurd ⟨hfst.trans (hnone.mpr hall), hrc⟩ hc
  · intro h0
    unfold processDomain
    rw [if_neg]
    rintro ⟨-, hpos⟩
    omega

/-- C3 witness: with one dispatched source whose only message is the nil
marker, the domain is appended to the failed list. -/
theorem claim_C3_witness :
    (processDomain 1 [none] [] [] "example.com").2 = [] ++ ["example.com"] :=
  (claim_C3_failed_iff 1 [none] [] [] "example.com").1.mpr
    ⟨by decide, by decide⟩

/-- C9: `cleanDomainLine` never lets a character outside `[A-Za-z0-9.-]`
through, and any input whose cleaned form lacks a dot-separated final
label that is alphabetic of length at least 2 is rejected by
`isValidDomain`. -/
theorem claim_C9_clean_valid (x : String) :
    (cleanDomainLine x).data.all isDomainChar = true ∧
    (hasAlphaFinalLabel (cleanDomainLine x) = false →
      isValidDomain (cleanDomainLine x) = false) := by
  constructor
  · rw [List.all_eq_true]
    intro c hc
    have h1 : c ∈ x.data.filter isDomainChar :=
      trimSpaceList_subset _ hc
    exact (List.mem_filter.mp h1).2
  · intro h
    by_contra hv
    rw [Bool.not_eq_false] at hv
    rw [isValidDomain_imp_hasAlphaFinalLabel _ hv] at h
    exact Bool.noConfusion h

/-- C9 witness: the dotless input string has no alphabetic final label of
length at least 2, so its cleaned form is invalid; and every character of
the cleaned form lies in the allowed class. -/
theorem claim_C9_witness :
    (cleanDomainLine " ex!ample ").data.all isDomainChar = true ∧
    isValidDomain (cleanDomainLine " ex!ample ") = false :=
  ⟨(claim_C9_clean_valid " ex!ample ").1,
    (claim_C9_clean_valid " ex!ample ").2 (by decide)⟩

/-- C1 counterexample: a VirusTotal querier whose request succeeds with a
response decoding to response code 1 and zero URLs sends the nil slice —
the same value as the absent marker, not an empty-but-present list — and
the drain loop therefore leaves `domainSuccess` false and appends the
domain to the failed list, contradicting the claim. -/
theorem claim_C1_counterexample :
    (getVirusTotalURLs ["k"] 0 false true (fun _ => .success ⟨200, "body"⟩)
        (fun _ => ⟨[], 1⟩)).sent = [none] ∧
    processDomain 1
        (getVirusTotalURLs ["k"] 0 false true (fun _ => .success ⟨200, "body"⟩)
          (fun _ => ⟨[], 1⟩)).sent [] [] "example.com" =
      ([], ["example.com"]) := by
  decide

/-- C1 (amended): a VirusTotal querier that succeeds with zero extracted
URLs sends the nil slice, identical to the absent marker, while still
logging a SUCCESS event reporting 0 URLs; the drain loop consequently does
not set `domainSuccess`, so a domain whose only dispatched source succeeds
with zero URLs is appended to the failed-domain list. -/
theorem claim_C1_amended (keys : List String) (hk : keys ≠ []) (idx : Nat)
    (doFn : Nat → DoOutcome) (parse : String → VirusTotalResponse)
    (resp : Response)
    (hok : (makeRequestWithRetry doFn false "VT").outcome = .ok resp)
    (hzero : vtExtract (parse resp.body) = none)
    (dom : String) (s0 f0 : List String) :
    (getVirusTotalURLs keys idx false true doFn parse).sent = [none] ∧
    (⟨"SUCCESS", "VT", .foundUrls 0⟩ : logMessage) ∈
      (getVirusTotalURLs keys idx false true doFn parse).logs ∧
    processDomain 1 (getVirusTotalURLs keys idx false true doFn parse).sent
      s0 f0 dom = (s0, f0 ++ [dom]) := by
  have hlen : ¬ keys.length = 0 := by
    simpa [List.length_eq_zero] using hk
  have hrun : getVirusTotalURLs keys idx false true doFn parse =
      vtAfterFetch false (.ok resp)
        (makeRequestWithRetry doFn false "VT").logs parse := by
    unfold getVirusTotalURLs
    rw [if_neg hlen, if_neg (by simp), hok]
  rw [hrun]
  simp only [vtAfterFetch]
  rw [hzero]
  refine ⟨rfl, ?_, ?_⟩
  · simp [logIf, goLen]
  · simp [processDomain, drainLoop, insertUrls, Option.isSome]

/-- C1 amended witness: concrete instantiation with one key, a 200
response, and a decoded body carrying response code 1 and no URLs. -/
theorem claim_C1_amended_witness :
    (getVirusTotalURLs ["k"] 0 false true (fun _ => .success ⟨200, "b"⟩)
        (fun _ => ⟨[], 1⟩)).sent = [none] ∧
    (⟨"SUCCESS", "VT", .foundUrls 0⟩ : logMessage) ∈
      (getVirusTotalURLs ["k"] 0 false true (fun _ => .success ⟨200, "b"⟩)
        (fun _ => ⟨[], 1⟩)).logs ∧
    processDomain 1
        (getVirusTotalURLs ["k"] 0 false true (fun _ => .success ⟨200, "b"⟩)
          (fun _ => ⟨[], 1⟩)).sent ["s"] [] "dom" = (["s"], [] ++ ["dom"]) :=
  claim_C1_amended ["k"] (by decide) 0 _ _ ⟨200, "b"⟩ (by decide) (by decide)
    "dom" ["s"] []

/-- C4 counterexample: the VirusTotal querier dispatched with an empty key
list returns without sending any message on the results channel, so a
dispatched querier does not always send exactly one message. -/
theorem claim_C4_counterexample :
    (getVirusTotalURLs [] 0 false true (fun _ => .success ⟨200, ""⟩)
        (fun _ => ⟨[], 1⟩)).sent.length = 0 := by
  decide

/-- C4 (amended): every dispatched querier signals the wait-group on every
path; the OTX, Wayback and HudsonRock queriers send exactly one message
(URL slice or nil marker) on the results channel on every path, while the
VirusTotal querier sends exactly one message when its key list is
non-empty and none at all when it is empty. -/
theorem claim_C4_amended (keys : List String) (idx : Nat) (silent : Bool)
    (vtReqOk : Bool) (vtDo : Nat → DoOutcome)
    (vtParse : String → VirusTotalResponse)
    (oenv : OtxEnv) (fuel : Nat)
    (wbReqOk : Bool) (wbDo : Nat → DoOutcome)
    (hrReqOk : Bool) (hrDo : Nat → DoOutcome)
    (hrParse : String → HudsonRockResponse) :
    ((getVirusTotalURLs keys idx silent vtReqOk vtDo vtParse).wgDone = true ∧
      (getVirusTotalURLs keys idx silent vtReqOk vtDo vtParse).sent.length =
        (if keys.length = 0 then 0 else 1)) ∧
    ((getAlienVaultURLs keys idx silent oenv fuel).wgDone = true ∧
      (getAlienVaultURLs keys idx silent oenv fuel).sent.length = 1) ∧
    ((getWaybackURLs silent wbReqOk wbDo).wgDone = true ∧
      (getWaybackURLs silent wbReqOk wbDo).sent.length = 1) ∧
    ((getHudsonRockURLs keys idx silent hrReqOk hrDo hrParse).wgDone = true ∧
      (getHudsonRockURLs keys idx silent hrReqOk hrDo hrParse).sent.length = 1) := by
  refine ⟨?_, ?_, ?_, ?_⟩
  · by_cases h0 : keys.length = 0
    · simp [getVirusTotalURLs, h0]
    · by_cases hreq : vtReqOk = false
      · simp [getVirusTotalURLs, h0, hreq]
      · unfold getVirusTotalURLs
        rw [if_neg h0, if_neg hreq]
        cases (makeRequestWithRetry vtDo silent "VT").outcome <;>
          simp [vtAfterFetch, h0]
  · exact ⟨(otxLoop_shape silent oenv fuel 0 none []).2,
      (otxLoop_shape silent oenv fuel 0 none []).1⟩
  · by_cases hreq : wbReqOk = false
    · simp [getWaybackURLs, hreq]
    · unfold getWaybackURLs
      rw [if_neg hreq]
      cases (makeRequestWithRetry wbDo silent "Wayback").outcome <;>
        simp [waybackAfterFetch]
  · by_cases hreq : hrReqOk = false
    · simp [getHudsonRockURLs, hreq]
    · unfold getHudsonRockURLs
      rw [if_neg hreq]
      cases (makeRequestWithRetry hrDo silent "HudsonRock").outcome <;>
        simp [hrAfterFetch]

/-- C5 counterexample: in the OTX querier, a first page succeeding with
one URL followed by a terminal fetch failure on the second page results in
the partially accumulated non-nil list being sent (not the absent marker)
together with a SUCCESS log event, contradicting the claim. -/
theorem claim_C5_counterexample :
    (getAlienVaultURLs [] 0 false otxEnvPartial 2).sent = [some ["u1"]] ∧
    ((getAlienVaultURLs [] 0 false otxEnvPartial 2).logs.filter
        (fun m => m.type == "SUCCESS")).length = 1 := by
  decide

/-- C5 (amended): a request-construction failure or a terminal Fetcher
failure on any page of the OTX pagination loop stops the loop and the
querier then sends exactly the slice accumulated so far (the nil marker
when nothing was accumulated, a partial non-nil list otherwise), having
logged an ERROR event followed by a SUCCESS event reporting the
accumulated count (suppressed when silent). -/
theorem claim_C5_amended (silent : Bool) (env : OtxEnv) (fuel p : Nat)
    (acc : GoSlice) (logs : List logMessage)
    (hfail : (env.page p).reqOk = false ∨
      ((env.page p).reqOk = true ∧ ∃ e : GoError,
        (makeRequestWithRetry (env.page p).doFn silent "OTX").outcome =
          .exhausted e)) :
    (otxLoop silent env p (fuel + 1) acc logs).sent = [acc] ∧
    (silent = false → ∃ mid : List logMessage,
      (otxLoop silent env p (fuel + 1) acc logs).logs =
        logs ++ mid ++ [⟨"SUCCESS", "OTX", .foundUrls (goLen acc)⟩] ∧
      ∃ m ∈ mid, m.type = "ERROR") := by
  rcases hfail with hreq | ⟨hreq, e, hex⟩
  · rw [otxLoop, if_pos hreq]
    refine ⟨rfl, ?_⟩
    rintro rfl
    refine ⟨[⟨"ERROR", "OTX", .failedCreateRequest⟩], ?_, ?_⟩
    · simp [otxFinish, logIf]
    · exact ⟨_, List.mem_singleton_self _, rfl⟩
  · rw [otxLoop, if_neg (by simp [hreq]), hex]
    refine ⟨rfl, ?_⟩
    rintro rfl
    refine ⟨(makeRequestWithRetry (env.page p).doFn false "OTX").logs ++
      [⟨"ERROR", "OTX", .errorText e⟩], ?_, ?_⟩
    · simp [otxFinish, logIf]
    · exact ⟨⟨"ERROR", "OTX", .errorText e⟩,
        List.mem_append_right _ (List.mem_singleton_self _), rfl⟩

/-- C5 amended witness: with the partial environment at its failing second
page, the loop sends exactly the accumulated one-URL slice and logs an
ERROR before the final SUCCESS reporting one URL. -/
theorem claim_C5_amended_witness :
    (otxLoop false otxEnvPartial 1 (0 + 1) (some ["u1"]) []).sent =
      [some ["u1"]] ∧
    (false = false → ∃ mid : List logMessage,
      (otxLoop false otxEnvPartial 1 (0 + 1) (some ["u1"]) []).logs =
        [] ++ mid ++ [⟨"SUCCESS", "OTX", .foundUrls (goLen (some ["u1"]))⟩] ∧
      ∃ m ∈ mid, m.type = "ERROR") :=
  claim_C5_amended false otxEnvPartial 0 1 (some ["u1"]) []
    (Or.inr ⟨by decide, .afterAttempts 3 (.mk "timeout"), by decide⟩)

/-- C6: the global URL set produced by a run contains exactly the URLs
carried by the messages of the processed domains, its flattened form has
no duplicates, it only grows as the loop runs, and inserting an
already-present URL changes nothing. -/
theorem claim_C6_global_set (doms : List DomainRun) (u v : String)
    (s0 s f : List String) :
    (u ∈ (mainLoop doms ([], [])).1 ↔
      ∃ d ∈ doms, ∃ m ∈ d.msgs, u ∈ m.getD []) ∧
    (mainLoop doms ([], [])).1.Nodup ∧
    s ⊆ (mainLoop doms (s, f)).1 ∧
    (v ∈ s0 → setInsert s0 v = s0) := by
  refine ⟨?_, ?_, ?_, ?_⟩
  · rw [mainLoop_fst_mem]
    simp
  · exact mainLoop_fst_nodup doms [] [] List.nodup_nil
  · exact mainLoop_fst_subset doms s f
  · intro hv
    unfold setInsert
    rw [if_pos hv]

/-- C6 witness: a one-domain run whose single message carries one URL puts
that URL in the global set, and inserting a present URL is a no-op. -/
theorem claim_C6_witness :
    "a" ∈ (mainLoop [⟨"d", 1, [some ["a"]]⟩] ([], [])).1 ∧
    setInsert ["x"] "x" = ["x"] :=
  ⟨(claim_C6_global_set [⟨"d", 1, [some ["a"]]⟩] "a" "x" ["x"] [] []).1.mpr
      ⟨⟨"d", 1, [some ["a"]]⟩, by decide, some ["a"], by decide, by decide⟩,
    (claim_C6_global_set [⟨"d", 1, [some ["a"]]⟩] "a" "x" ["x"] [] []).2.2.2
      (by decide)⟩

/-- C7: in the per-domain orchestration trace with at least one dispatched
source, the wait on the querier wait-group precedes both channel closes,
the closes precede the completion of the log consumer, and the log
consumer finishes before any message is read from the results channel and
before the success/failure decision. -/
theorem claim_C7_order (rc m : Nat) (h1 : 1 ≤ rc) (h2 : rc ≤ 4)
    (h3 : m ≤ rc) :
    eventsBefore (orchestratorTrace rc m) isWaitAll isCloseChan ∧
    eventsBefore (orchestratorTrace rc m) isCloseChan isLogDrained ∧
    eventsBefore (orchestratorTrace rc m) isLogDrained isReadResult ∧
    eventsBefore (orchestratorTrace rc m) isReadResult isDecision ∧
    eventsBefore (orchestratorTrace rc m) isLogDrained isDecision := by
  interval_cases rc <;> interval_cases m <;> decide

/-- C7 witness: the ordering at four dispatched sources and four received
messages. -/
theorem claim_C7_witness :
    eventsBefore (orchestratorTrace 4 4) isWaitAll isCloseChan ∧
    eventsBefore (orchestratorTrace 4 4) isCloseChan isLogDrained ∧
    eventsBefore (orchestratorTrace 4 4) isLogDrained isReadResult ∧
    eventsBefore (orchestratorTrace 4 4) isReadResult isDecision ∧
    eventsBefore (orchestratorTrace 4 4) isLogDrained isDecision :=
  claim_C7_order 4 4 (by decide) (by decide) (by decide)

/-- C8: when the interrupt fires after `k` domains, the watcher exits the
process, its first write targets the configured output path with exactly
the URLs merged from the first `k` domains (the remaining domains are
never drained), and a write to `failed_domains.txt` occurs exactly when
the failed-domain list accumulated so far is non-empty. -/
theorem claim_C8_interrupt (out : String)
    (hout : out ≠ "failed_domains.txt") (doms : List DomainRun) (k : Nat)
    (u : String) :
    (runWithInterrupt out doms k).exited = true ∧
    (∃ rest, (runWithInterrupt out doms k).writes =
      ⟨out, (mainLoop (doms.take k) ([], [])).1⟩ :: rest) ∧
    (u ∈ (mainLoop (doms.take k) ([], [])).1 ↔
      ∃ d ∈ doms.take k, ∃ m ∈ d.msgs, u ∈ m.getD []) ∧
    ((∃ w ∈ (runWithInterrupt out doms k).writes,
        w.path = "failed_domains.txt") ↔
      (mainLoop (doms.take k) ([], [])).2 ≠ []) := by
  refine ⟨rfl, ?_, ?_, ?_⟩
  · exact ⟨_, rfl⟩
  · rw [mainLoop_fst_mem]
    simp
  · unfold runWithInterrupt interruptHandler
    by_cases hf : (mainLoop (doms.take k) ([], [])).2 = []
    · rw [if_neg (by simp [hf])]
      simp only [hf, ne_eq, not_true_eq_false, iff_false]
      rintro ⟨w, hw, hpath⟩
      simp only [List.append_nil, List.mem_singleton] at hw
      rw [hw] at hpath
      exact hout hpath
    · rw [if_pos (List.length_pos.mpr hf)]
      simp only [hf, ne_eq, not_false_eq_true, iff_true]
      exact ⟨⟨"failed_domains.txt", (mainLoop (doms.take k) ([], [])).2⟩,
        List.mem_append_right _ (List.mem_singleton_self _), rfl⟩

/-- C8 witness: interrupting after one of two domains writes the single
URL merged so far and exits; the second domain's messages are never
merged. -/
theorem claim_C8_witness :
    (runWithInterrupt "endpoints.txt"
      [⟨"d1", 1, [some ["u"]]⟩, ⟨"d2", 1, [some ["v"]]⟩] 1).exited = true ∧
    "u" ∈ (mainLoop ([⟨"d1", 1, [some ["u"]]⟩,
      ⟨"d2", 1, [some ["v"]]⟩].take 1) ([], [])).1 :=
  ⟨(claim_C8_interrupt "endpoints.txt" (by decide)
      [⟨"d1", 1, [some ["u"]]⟩, ⟨"d2", 1, [some ["v"]]⟩] 1 "u").1,
    (claim_C8_interrupt "endpoints.txt" (by decide)
      [⟨"d1", 1, [some ["u"]]⟩, ⟨"d2", 1, [some ["v"]]⟩] 1 "u").2.2.1.mpr
      ⟨⟨"d1", 1, [some ["u"]]⟩, by decide, some ["u"], by decide, by decide⟩⟩

/-- C10: in silent mode a normal completion prints the accumulated URLs to
stdout and writes no file other than possibly `failed_domains.txt`, while
an interrupt in silent mode prints no URLs to stdout and does write the
accumulated URL set to the configured output path. -/
theorem claim_C10_silent (out : String) (urlSet failed : List String) :
    (normalCompletion true out urlSet failed).stdoutUrls = urlSet ∧
    (normalCompletion true out urlSet failed).writes.all
      (fun w => w.path == "failed_domains.txt") = true ∧
    (interruptCompletion out urlSet failed).stdoutUrls = [] ∧
    (⟨out, urlSet⟩ : WriteAction) ∈
      (interruptCompletion out urlSet failed).writes := by
  refine ⟨rfl, ?_, rfl, ?_⟩
  · unfold normalCompletion
    by_cases hf : 0 < failed.length
    · simp [hf]
    · simp [hf]
  · unfold interruptCompletion interruptHandler
    exact List.mem_append_left _ (List.mem_singleton_self _)

end PhShUrl
